import Mathlib

/-!
Verification development for the Conjugate-Gradient-Method repository.

The numeric core of the repository manipulates length-N vectors (numpy 1-D
arrays) and N by N matrices (numpy 2-D arrays) whose entries are exact
sympy / numpy numbers.  We embed those values as rational numbers: points
and directions become functions out of Fin n, matrices become curried
functions.  The symbolic-evaluator collaborator (sympy differentiation plus
substitution) is embedded as a gradient oracle, a function sending a point
to the vector of partial-derivative values at that point; the objective
itself is a function from points to scalars.  A result of a numeric
operation that Python produces as a non-finite value (division by zero
giving zoo, nan or inf, or a non-numeric sympy expression) is embedded as
the none case of an Option.  The stopping criteria compare square roots, so
they are embedded over the real numbers.
-/

/-- Length-n numeric vector (numpy 1-D array of exact values). -/
abbrev Vec (n : ℕ) := Fin n → ℚ

/-- n by n numeric matrix (numpy 2-D array of exact values). -/
abbrev Mat (n : ℕ) := Fin n → Fin n → ℚ

/-- numpy np.dot on two 1-D arrays: the scalar inner product. -/
def np_dot {n : ℕ} (u v : Vec n) : ℚ := ∑ i, u i * v i

/-- numpy np.dot of a 2-D array with a 1-D array: matrix-vector product. -/
def np_matvec {n : ℕ} (m : Mat n) (v : Vec n) : Vec n :=
  fun i => ∑ j, m i j * v j

/-- numpy np.eye n: the n by n identity matrix. -/
def np_eye (n : ℕ) : Mat n := fun i j => if i = j then 1 else 0

/-- mathematics/modification.py get_delta_x: np.subtract(x_next, x_current). -/
def get_delta_x {n : ℕ} (x_next x_current : Vec n) : Vec n :=
  fun i => x_next i - x_current i

/-- mathematics/modification.py get_delta_y: the difference of the gradient
vectors at x_next and at x_current.  The source builds each gradient vector
by substituting the point into every partial derivative of the objective;
the gradient oracle grad embeds that symbolic-evaluator call. -/
def get_delta_y {n : ℕ} (grad : Vec n → Vec n) (x_next x_current : Vec n) : Vec n :=
  fun i => grad x_next i - grad x_current i

/-- mathematics/modification.py get_h_k (identical body in
two_step_minimization_method.py _get_h_k).  The source computes
bracket = np.subtract(delta_x, np.dot(h_previous, delta_y)) and then
np.add(h_previous, np.divide(np.dot(bracket.T, bracket.T), np.dot(bracket, delta_y))).
bracket is a 1-D array, on which .T is the identity, so np.dot(bracket.T, bracket.T)
is the scalar inner product of bracket with itself, and np.add broadcasts the
resulting scalar over every entry of h_previous.  There is no test on the
denominator: when np.dot(bracket, delta_y) is zero the division is a division
by zero, whose float result is non-finite (inf or nan); that degenerate
outcome is embedded as none. -/
def get_h_k {n : ℕ} (grad : Vec n → Vec n) (x_next x_current : Vec n)
    (h_previous : Mat n) : Option (Mat n) :=
  let delta_x := get_delta_x x_next x_current
  let delta_y := get_delta_y grad x_next x_current
  let bracketed_expression := fun i => delta_x i - np_matvec h_previous delta_y i
  let numerator := np_dot bracketed_expression bracketed_expression
  let denominator := np_dot bracketed_expression delta_y
  if denominator = 0 then none
  else some (fun i j => h_previous i j + numerator / denominator)

/-- Curvature update as the specification words it (spec section 4.3): if the
denominator is zero, reset H to the identity; otherwise add the outer product
of bracket with itself divided by the scalar denominator.  This definition
follows the words of the specification and exists only to be compared with
get_h_k, which is translated from the source. -/
def get_h_k_spec {n : ℕ} (grad : Vec n → Vec n) (x_next x_current : Vec n)
    (h_previous : Mat n) : Mat n :=
  let delta_x := get_delta_x x_next x_current
  let delta_y := get_delta_y grad x_next x_current
  let bracket := fun i => delta_x i - np_matvec h_previous delta_y i
  let denominator := np_dot bracket delta_y
  if denominator = 0 then np_eye n
  else fun i j => h_previous i j + bracket i * bracket j / denominator

/-- Square of mathematics/general.py get_norm_of_vector.  The source computes
sum(abs(e) ** 2 for e in v) ** 0.5 and the callers in get_beta_k immediately
square it; for real inputs the square of the square root of the nonnegative
sum is that sum, so the squared norm is the sum of the squared entries. -/
def get_norm_of_vector_sq {n : ℕ} (v : Vec n) : ℚ := ∑ i, |v i| ^ 2

/-- mathematics/modification.py get_beta_k (identical body in
two_step_minimization_method.py _get_beta_k).  On iteration numbers divisible
by the dimension it returns 0 without evaluating any derivative; otherwise it
divides the squared gradient norm at x_current by the squared gradient norm
at x_previous with no guard, so a zero denominator makes the quotient a
non-finite sympy value (zoo or nan), embedded as none.  The dimension equals
the length n of the vectors. -/
def get_beta_k {n : ℕ} (grad : Vec n → Vec n) (x_current x_previous : Vec n)
    (iteration_number : ℕ) : Option ℚ :=
  if iteration_number % n = 0 then some 0
  else
    let c := get_norm_of_vector_sq (grad x_current)
    let p := get_norm_of_vector_sq (grad x_previous)
    if p = 0 then none else some (c / p)

/-- mathematics/modification.py get_alpha_k_doubling_method.  The source body
is a single print statement; the function takes no data and implicitly
returns None, embedded as none: it never produces a numeric step length. -/
def get_alpha_k_doubling_method : Option ℚ := none

/-- Doubling line-search strategy as the specification words it (spec section
4.1): start at a given step (the spec starts at 1), halve while the objective
at point plus step times direction does not improve on the objective at
point, return the first improving step; give up (entrapment) when the bounded
halving budget is spent.  This definition follows the words of the
specification and exists only to be compared with the source stub
get_alpha_k_doubling_method. -/
def doubling_method_spec {n : ℕ} (f : Vec n → ℚ) (point direction : Vec n) :
    ℕ → ℚ → Option ℚ
  | 0, _ => none
  | Nat.succ fuel, alpha =>
      if f (fun i => point i + alpha * direction i) < f point then some alpha
      else doubling_method_spec f point direction fuel (alpha / 2)

/-- mathematics/modification.py get_x_next: x_current + s_current * alpha_current. -/
def get_x_next {n : ℕ} (x_current : Vec n) (alpha_current : ℚ) (s_current : Vec n) : Vec n :=
  fun i => x_current i + s_current i * alpha_current

/-- mathematics/modification.py get_s_0 and the iteration-zero branch of the
direction updates: the anti-gradient (each entry is minus the partial
derivative) evaluated at the given point. -/
def get_s_0 {n : ℕ} (grad : Vec n → Vec n) (x_0 : Vec n) : Vec n :=
  fun i => -(grad x_0 i)

/-- mathematics/modification.py get_s_k_base_modification: at iteration 0 the
anti-gradient, afterwards anti-gradient plus beta_current times s_previous. -/
def get_s_k_base_modification {n : ℕ} (grad : Vec n → Vec n) (x_current : Vec n)
    (beta_current : ℚ) (s_previous : Vec n) (iteration : ℕ) : Vec n :=
  if iteration = 0 then get_s_0 grad x_current
  else fun i => -(grad x_current i) + beta_current * s_previous i

/-- methods/conjugate_gradients_2nd_modification.py get_s_k_second_modification:
at iteration 0 the anti-gradient, afterwards np.dot(h_current, anti-gradient)
plus np.dot(beta_current, s_previous). -/
def get_s_k_second_modification {n : ℕ} (grad : Vec n → Vec n) (x_current : Vec n)
    (beta_current : ℚ) (s_previous : Vec n) (h_current : Mat n) (iteration : ℕ) : Vec n :=
  if iteration = 0 then get_s_0 grad x_current
  else fun i => np_matvec h_current (get_s_0 grad x_current) i + beta_current * s_previous i

/-!
Minimization drivers.  The two run_method loops from
methods/conjugate_gradients.py and
methods/conjugate_gradients_2nd_modification.py are embedded with an
injected line-search strategy alphaM (the source injects
alpha_k_calculating_method the same way) and an injected stopping-criteria
decision crit (check_all_criteria compares real square roots, so its
boolean verdict on a pair of numeric points is taken as an oracle here; its
own definition over the reals appears further below).  A line search that
fails to produce a numeric step yields none; the resulting non-numeric
point makes the sympy comparisons inside check_all_criteria raise
TypeError.  In the base method that call is guarded by no try block, so the
exception escapes run_method: embedded as Except.error.  In the second
modification the criteria call and the curvature update sit inside a try
block whose except TypeError handler prints the entrapment banner, reports
the last valid point and breaks: embedded as a normal Except.ok return.
Both loops terminate through their iteration-threshold checks; the fuel
argument only mirrors that bound so that the recursion is structural, and
it is started high enough that the threshold check always fires first.
-/

/-- Loop of methods/conjugate_gradients.py run_method.  Each pass increments
the counter, computes beta, direction, alpha and the next point, appends the
objective value to the trace, then checks the threshold and the stopping
criteria.  A non-finite beta or a non-numeric alpha poisons the next point
and the unguarded criteria comparison raises, so the run propagates the
exception: Except.error. -/
def conjugateGradients_loop {n : ℕ} (f : Vec n → ℚ) (grad : Vec n → Vec n)
    (alphaM : Vec n → Vec n → Option ℚ) (crit : Vec n → Vec n → Bool)
    (threshold : ℕ) :
    ℕ → ℕ → Vec n → Vec n → Vec n → List ℚ → Except Unit (List ℚ)
  | 0, _, _, _, _, trace => Except.ok trace
  | Nat.succ fuel, iteration_counter, x_previous, x_current, s_previous, trace =>
      let k := iteration_counter + 1
      match get_beta_k grad x_current x_previous k with
      | none => Except.error ()
      | some beta_current =>
        let s_current := get_s_k_base_modification grad x_current beta_current s_previous k
        match alphaM x_current s_current with
        | none => Except.error ()
        | some alpha_current =>
          let x_next := get_x_next x_current alpha_current s_current
          let trace' := trace ++ [f x_next]
          if threshold < k then Except.ok trace'
          else if crit x_next x_current then Except.ok trace'
          else conjugateGradients_loop f grad alphaM crit threshold
                 fuel k x_current x_next s_current trace'

/-- methods/conjugate_gradients.py run_method: initial steepest-descent
segment producing x_1, an initial stopping-criteria check, then the loop.
No try block appears anywhere in the method, so every failure propagates. -/
def conjugateGradients_run_method {n : ℕ} (f : Vec n → ℚ) (grad : Vec n → Vec n)
    (alphaM : Vec n → Vec n → Option ℚ) (crit : Vec n → Vec n → Bool)
    (threshold : ℕ) (x_0 : Vec n) : Except Unit (List ℚ) :=
  let trace_0 := [f x_0]
  let s_0 := get_s_0 grad x_0
  match alphaM x_0 s_0 with
  | none => Except.error ()
  | some alpha_0 =>
    let x_1 := get_x_next x_0 alpha_0 s_0
    let trace_1 := trace_0 ++ [f x_1]
    if crit x_1 x_0 then Except.ok trace_1
    else conjugateGradients_loop f grad alphaM crit threshold
           (threshold + 1) 0 x_0 x_1 s_0 trace_1

/-- Loop of methods/conjugate_gradients_2nd_modification.py run_method.  The
threshold is checked at the top of each pass (normal break).  Beta, direction,
alpha and the next point are computed, the trace is extended, and the
stopping-criteria check together with the curvature update sits inside a
try block catching TypeError: a non-finite beta or non-numeric alpha makes
that guarded comparison raise, the handler reports the current point and
breaks, so the run still returns normally (Except.ok); likewise a non-finite
curvature update poisons the next guarded comparison and is caught there. -/
def secondModification_loop {n : ℕ} (f : Vec n → ℚ) (grad : Vec n → Vec n)
    (alphaM : Vec n → Vec n → Option ℚ) (crit : Vec n → Vec n → Bool)
    (threshold : ℕ) :
    ℕ → ℕ → Vec n → Vec n → Vec n → Mat n → List ℚ → Except Unit (List ℚ)
  | 0, _, _, _, _, _, trace => Except.ok trace
  | Nat.succ fuel, iteration_counter, x_previous, x_current, s_previous, h_current, trace =>
      if threshold < iteration_counter then Except.ok trace
      else
        match get_beta_k grad x_current x_previous iteration_counter with
        | none => Except.ok trace
        | some beta_current =>
          let s_current := get_s_k_second_modification grad x_current beta_current
                             s_previous h_current iteration_counter
          match alphaM x_current s_current with
          | none => Except.ok trace
          | some alpha_current =>
            let x_next := get_x_next x_current alpha_current s_current
            let trace' := trace ++ [f x_next]
            if crit x_next x_current then Except.ok trace'
            else
              match get_h_k grad x_next x_current h_current with
              | none => Except.ok trace'
              | some h_next => secondModification_loop f grad alphaM crit threshold
                                 fuel (iteration_counter + 1) x_current x_next
                                 s_current h_next trace'

/-- methods/conjugate_gradients_2nd_modification.py run_method: the trace
starts with the value at x_0, the curvature matrix starts as np.eye, and the
whole search is the loop starting at iteration counter 0 (the source keeps
x_previous and s_previous as empty arrays until the first pass ends; they are
never read on that pass because beta at iteration 0 returns 0 immediately and
the direction at iteration 0 ignores s_previous, so dummies are passed
here). -/
def secondModification_run_method {n : ℕ} (f : Vec n → ℚ) (grad : Vec n → Vec n)
    (alphaM : Vec n → Vec n → Option ℚ) (crit : Vec n → Vec n → Bool)
    (threshold : ℕ) (x_0 : Vec n) : Except Unit (List ℚ) :=
  secondModification_loop f grad alphaM crit threshold
    (threshold + 2) 0 x_0 x_0 (fun _ => 0) (np_eye n) [f x_0]

/-!
Stopping criteria, from
stopping_criteria/conjugate_stopping_criteria/conjugate_stopping_criteria.py.
The tests compare square roots and cube roots of the accuracy, so this part
of the embedding lives over the real numbers; the objective and its gradient
at a point are again oracles standing for the symbolic evaluator.
-/

/-- Real-valued point. -/
abbrev RVec (n : ℕ) := Fin n → ℝ

/-- mathematics/general.py get_norm_of_vector: sum(abs(e) ** 2) ** 0.5, the
Euclidean norm. -/
noncomputable def get_norm_of_vector {n : ℕ} (v : RVec n) : ℝ :=
  Real.sqrt (∑ i, |v i| ^ 2)

/-- check_first_stopping_criteria: the objective decrease test
f(x_previous) - f(x_current) < accuracy * (1 + abs(f(x_current))). -/
def check_first_stopping_criteria {n : ℕ} (f : RVec n → ℝ)
    (x_current x_previous : RVec n) (accuracy : ℝ) : Prop :=
  f x_previous - f x_current < accuracy * (1 + |f x_current|)

/-- check_second_stopping_criteria: the step-size test
norm(x_previous - x_current) < accuracy ** 0.5 * (1 + norm(x_current)). -/
def check_second_stopping_criteria {n : ℕ} (x_current x_previous : RVec n)
    (accuracy : ℝ) : Prop :=
  get_norm_of_vector (fun i => x_previous i - x_current i)
    < accuracy ^ ((1 : ℝ) / 2) * (1 + get_norm_of_vector x_current)

/-- check_third_stopping_criteria: the gradient-norm test
norm(gradient(x_current)) <= accuracy ** (1/3) * (1 + abs(f(x_current))). -/
def check_third_stopping_criteria {n : ℕ} (f : RVec n → ℝ) (grad : RVec n → RVec n)
    (x_current : RVec n) (accuracy : ℝ) : Prop :=
  get_norm_of_vector (grad x_current)
    ≤ accuracy ^ ((1 : ℝ) / 3) * (1 + |f x_current|)

/-- Python all(...) over a list of conditions: every member holds. -/
def all_props (l : List Prop) : Prop := ∀ p ∈ l, p

/-- check_all_criteria: all([first, second, third]). -/
def check_all_criteria {n : ℕ} (f : RVec n → ℝ) (grad : RVec n → RVec n)
    (x_current x_previous : RVec n) (accuracy : ℝ) : Prop :=
  all_props
    [check_first_stopping_criteria f x_current x_previous accuracy,
     check_second_stopping_criteria x_current x_previous accuracy,
     check_third_stopping_criteria f grad x_current accuracy]

/-!
Controller, from controller.py.  The two dictionaries of available
strategies and methods are embedded by their key sets; resolving a name
stands for the dictionary lookup that returns the corresponding callable or
class, and an Except.error stands for the raised exception.
-/

/-- Keys of the alpha-strategy dictionary in
Controller._get_alpha_k_calculating_method. -/
def alpha_methods_names : List String :=
  ["Single-Factor Minimization", "Doubling Method"]

/-- Keys of the minimization-method dictionary in
Controller._get_minimization_method. -/
def minimization_methods_names : List String :=
  ["Conjugate Gradients",
   "Conjugate Gradients 1st Modification",
   "Conjugate Gradients 2nd Modification",
   "Conjugate Gradients 3rd Modification"]

/-- Controller._get_alpha_k_calculating_method: collect the selected
strategies (dictionary entries whose value is true, in order), raise unless
exactly one is selected, then look the single name up, raising on a wrong
name. -/
def get_alpha_k_calculating_method (alpha_k_selection : List (String × Bool)) :
    Except String String :=
  let selected_methods := (alpha_k_selection.filter (fun kv => kv.2)).map (fun kv => kv.1)
  match selected_methods with
  | [method_name] =>
      if method_name ∈ alpha_methods_names then Except.ok method_name
      else Except.error ("Wrong Method Name: " ++ method_name)
  | _ => Except.error "Only one alpha calculating method could be selected"

/-- Controller._get_minimization_method: dictionary lookup of a method name,
raising KeyError on an unknown name. -/
def get_minimization_method (method_name : String) : Except String String :=
  if method_name ∈ minimization_methods_names then Except.ok method_name
  else Except.error ("Wrong Method Name: " ++ method_name)

/-- Resolution of every selected method name in order, as performed by the
for loop of Controller.run; the first unknown name raises. -/
def resolve_methods : List String → Except String (List String)
  | [] => Except.ok []
  | m :: ms =>
      match get_minimization_method m with
      | Except.error e => Except.error e
      | Except.ok name =>
          match resolve_methods ms with
          | Except.error e => Except.error e
          | Except.ok names => Except.ok (name :: names)

/-- Controller.run, configuration-validation part: resolve the alpha
strategy first, then collect the selected minimization methods, raise when
none is selected, then resolve each selected name.  (In the source the
per-method resolution is interleaved with running each method; the raised
errors and the success outcome are the same.) -/
def controller_run (alpha_k_selection methods_selection : List (String × Bool)) :
    Except String (String × List String) :=
  match get_alpha_k_calculating_method alpha_k_selection with
  | Except.error e => Except.error e
  | Except.ok alpha_k_method =>
    let selected_methods := (methods_selection.filter (fun kv => kv.2)).map (fun kv => kv.1)
    if selected_methods.length = 0 then
      Except.error "Please, select any minimization method"
    else
      match resolve_methods selected_methods with
      | Except.error e => Except.error e
      | Except.ok ms => Except.ok (alpha_k_method, ms)

/-!
Method construction, from methods/abc_minimization_method.py.  The sympified
objective is embedded by the data the constructor consults: its set of free
variable symbols.
-/

/-- Sympified objective expression as seen by the constructor: the list of
its free variable symbol names (a set in sympy, so without duplicates). -/
structure SymFunction where
  freeSymbols : List String

/-- State stored by ABCMinimisationMethod.__init__. -/
structure MethodState where
  function : SymFunction
  x_0 : List ℚ
  min_point : List ℚ
  accuracy : ℚ
  iteration_threshold : ℕ
  dimension : ℕ
  free_symbols : List String

/-- ABCMinimisationMethod.__init__: stores the inputs, converts the accuracy
exponent to 10 ** accuracy, sets dimension to len(x_0) and sorts the free
symbols by name.  The body performs no comparison between len(x_0) and the
number of free symbols and raises nothing, so the result is always ok. -/
def ABCMinimisationMethod_init (function : SymFunction) (x_0 min_point : List ℚ)
    (accuracy : ℤ) (iteration_threshold : ℕ) : Except String MethodState :=
  Except.ok
    { function := function
      x_0 := x_0
      min_point := min_point
      accuracy := (10 : ℚ) ^ accuracy
      iteration_threshold := iteration_threshold
      dimension := x_0.length
      free_symbols := function.freeSymbols.insertionSort (fun a b => a ≤ b) }

/-!
Theorems settling the claims.
-/

/-- Claim C1, counterexample: with a constant gradient, a unit step and
identity H_previous, the denominator bracket dot delta_y is zero, yet get_h_k
does not return the identity matrix: with no guard in the source the update
divides by zero and the result is non-finite (none), not np_eye 2. -/
theorem get_h_k_zero_denominator_counterexample :
    np_dot (fun i => get_delta_x (![1, 0] : Vec 2) ![0, 0] i
        - np_matvec (np_eye 2) (get_delta_y (fun _ _ => 0) ![1, 0] ![0, 0]) i)
      (get_delta_y (fun _ _ => 0) ![1, 0] ![0, 0]) = 0
    ∧ get_h_k (fun _ _ => (0 : ℚ)) ![1, 0] ![0, 0] (np_eye 2) ≠ some (np_eye 2) := by
  constructor
  · simp [np_dot, np_matvec, get_delta_x, get_delta_y, Fin.sum_univ_two]
  · have hnone : get_h_k (fun _ _ => (0 : ℚ)) ![1, 0] ![0, 0] (np_eye 2) = none := by
      simp only [get_h_k]
      rw [if_pos]
      simp [np_dot, np_matvec, get_delta_x, get_delta_y, Fin.sum_univ_two]
    rw [hnone]
    simp

/-- Claim C1, amended: get_h_k contains no zero-denominator guard; whenever
the denominator bracket dot delta_y is zero the update divides by zero, so
the returned matrix is undefined (none), for every H_previous and in
particular never the identity reset the specification describes. -/
theorem get_h_k_zero_denominator_gives_none {n : ℕ} (grad : Vec n → Vec n)
    (x_next x_current : Vec n) (h_previous : Mat n)
    (h : np_dot (fun i => get_delta_x x_next x_current i
          - np_matvec h_previous (get_delta_y grad x_next x_current) i)
         (get_delta_y grad x_next x_current) = 0) :
    get_h_k grad x_next x_current h_previous = none := by
  simp only [get_h_k]
  rw [if_pos h]

/-- Claim C1, witness: the amended theorem applied at the concrete
zero-denominator input. -/
theorem get_h_k_zero_denominator_gives_none_witness :
    get_h_k (fun _ _ => (0 : ℚ)) ![1, 0] ![0, 0] (np_eye 2) = none :=
  get_h_k_zero_denominator_gives_none (fun _ _ => 0) ![1, 0] ![0, 0] (np_eye 2)
    (by simp [np_dot, np_matvec, get_delta_x, get_delta_y, Fin.sum_univ_two])

/-- Claim C2: at the concrete input with gradient oracle p / 2, points
(0,0) and (1,0) and identity H_previous, the bracket is (1/2, 0) and the
denominator is 1/4, so the correction np.dot(bracket.T, bracket.T) /
denominator is the scalar 1, and the source adds it to every entry of
H_previous, returning the full matrix ((2,1),(1,2)); the rank-one form the
claim states, H_previous + outer(bracket, bracket) / denominator, is
((2,0),(0,1)), a different matrix.  So the correction term is a broadcast
scalar, not the claimed outer product. -/
theorem get_h_k_adds_scalar_not_outer :
    get_h_k (fun p i => p i / 2) ![1, 0] ![0, 0] (np_eye 2) = some ![![2, 1], ![1, 2]]
    ∧ get_h_k_spec (fun p i => p i / 2) ![1, 0] ![0, 0] (np_eye 2) = ![![2, 0], ![0, 1]]
    ∧ (![![2, 1], ![1, 2]] : Mat 2) ≠ ![![2, 0], ![0, 1]] := by
  have hden : np_dot (fun i => get_delta_x (![1, 0] : Vec 2) ![0, 0] i
      - np_matvec (np_eye 2) (get_delta_y (fun p i => p i / 2) ![1, 0] ![0, 0]) i)
      (get_delta_y (fun p i => p i / 2) ![1, 0] ![0, 0]) = 1 / 4 := by
    simp [np_dot, np_matvec, get_delta_x, get_delta_y, np_eye, Fin.sum_univ_two]
    norm_num
  refine ⟨?_, ?_, ?_⟩
  · simp only [get_h_k, hden]
    norm_num
    funext i j
    fin_cases i <;> fin_cases j <;>
      norm_num [np_dot, np_matvec, get_delta_x, get_delta_y, np_eye, Fin.sum_univ_two]
  · simp only [get_h_k_spec, hden]
    norm_num
    funext i j
    fin_cases i <;> fin_cases j <;>
      norm_num [np_dot, np_matvec, get_delta_x, get_delta_y, np_eye, Fin.sum_univ_two]
  · intro h
    have h01 := congrFun (congrFun h 0) 1
    norm_num at h01

/-- Helper: every branch of the second-modification loop returns normally,
by induction on the fuel; the try block around the stopping-criteria check
and curvature update converts every downstream failure of the line search,
of beta or of the curvature update into a caught entrapment break. -/
theorem secondModification_loop_isOk {n : ℕ} (f : Vec n → ℚ) (grad : Vec n → Vec n)
    (alphaM : Vec n → Vec n → Option ℚ) (crit : Vec n → Vec n → Bool)
    (threshold : ℕ) (fuel : ℕ) :
    ∀ (k : ℕ) (x_previous x_current s_previous : Vec n) (h_current : Mat n)
      (trace : List ℚ),
      (secondModification_loop f grad alphaM crit threshold fuel k
          x_previous x_current s_previous h_current trace).isOk = true := by
  induction fuel with
  | zero => intro k xp xc sp h tr; rfl
  | succ fuel ih =>
      intro k xp xc sp h tr
      rw [secondModification_loop]
      by_cases hk : threshold < k
      · rw [if_pos hk]; rfl
      · rw [if_neg hk]
        cases get_beta_k grad xc xp k with
        | none => rfl
        | some beta =>
            simp only []
            cases alphaM xc (get_s_k_second_modification grad xc beta sp h k) with
            | none => rfl
            | some alpha =>
                simp only []
                by_cases hc : crit (get_x_next xc alpha
                    (get_s_k_second_modification grad xc beta sp h k)) xc
                · rw [if_pos hc]; rfl
                · rw [if_neg hc]
                  cases get_h_k grad (get_x_next xc alpha
                      (get_s_k_second_modification grad xc beta sp h k)) xc h with
                  | none => rfl
                  | some h' => exact ih _ _ _ _ _ _

/-- Claim C3, counterexample: for the one-dimensional objective x squared
with starting point 1, a line search that yields a non-numeric step on the
very first call, and stopping criteria that never fire, the base method
run_method propagates the failure to its caller (Except.error) instead of
halting with a report: no try block guards the criteria comparison that the
non-numeric point poisons. -/
theorem conjugateGradients_run_method_propagates :
    conjugateGradients_run_method (fun x : Vec 1 => x 0 ^ 2) (fun x _ => 2 * x 0)
      (fun _ _ => none) (fun _ _ => false) 5 (fun _ => 1) = Except.error () := rfl

/-- Claim C3, amended: the second modification run_method catches the
entrapment inside its try block and always returns normally, reporting the
point reached so far, whatever the line search does; the base method
run_method has no handler, and with a line search that yields a non-numeric
step at the start it propagates the exception for every objective, gradient,
criteria verdicts, threshold and starting point. -/
theorem entrapment_caught_in_second_modification_only :
    (∀ (n : ℕ) (f : Vec n → ℚ) (grad : Vec n → Vec n)
       (alphaM : Vec n → Vec n → Option ℚ) (crit : Vec n → Vec n → Bool)
       (threshold : ℕ) (x_0 : Vec n),
        (secondModification_run_method f grad alphaM crit threshold x_0).isOk = true)
    ∧ (∀ (n : ℕ) (f : Vec n → ℚ) (grad : Vec n → Vec n) (crit : Vec n → Vec n → Bool)
         (threshold : ℕ) (x_0 : Vec n),
        conjugateGradients_run_method f grad (fun _ _ => none) crit threshold x_0
          = Except.error ()) := by
  constructor
  · intro n f grad alphaM crit threshold x_0
    exact secondModification_loop_isOk f grad alphaM crit threshold _ _ _ _ _ _ _
  · intro n f grad crit threshold x_0
    rfl

/-- Claim C4: the Doubling strategy of the source is an unimplemented stub:
it prints a banner and returns None (none), producing no numeric step for
any input, while the halving strategy the specification describes, started
at step 1 on the one-dimensional objective x squared at point 1 with the
improving direction minus 1, returns step 1. -/
theorem get_alpha_k_doubling_method_is_stub :
    get_alpha_k_doubling_method = none
    ∧ doubling_method_spec (fun x : Vec 1 => x 0 ^ 2) ![1] ![-1] 10 1 = some 1 := by
  constructor
  · rfl
  · rw [doubling_method_spec]
    rw [if_pos]
    norm_num [Fin.sum_univ_one]

/-- Claim C5: the conjugacy coefficient of get_beta_k is 0 on every iteration
number divisible by the dimension, whatever the gradients are, and on every
other iteration it is the Fletcher-Reeves ratio of the squared Euclidean
gradient norms at x_current and x_previous, the latter whenever that ratio
has a nonzero denominator. -/
theorem get_beta_k_fletcher_reeves {n : ℕ} (grad : Vec n → Vec n)
    (x_current x_previous : Vec n) (k : ℕ) :
    (k % n = 0 → get_beta_k grad x_current x_previous k = some 0)
    ∧ (k % n ≠ 0 → get_norm_of_vector_sq (grad x_previous) ≠ 0 →
        get_beta_k grad x_current x_previous k
          = some (get_norm_of_vector_sq (grad x_current)
              / get_norm_of_vector_sq (grad x_previous))) := by
  constructor
  · intro h
    simp only [get_beta_k]
    rw [if_pos h]
  · intro h hp
    simp only [get_beta_k]
    rw [if_neg h, if_neg hp]

/-- Claim C5, witness: the theorem applied in dimension 2 with the identity
gradient oracle, at the restart iteration 2 and at the ordinary iteration 1,
where the previous gradient (1, 0) has nonzero squared norm. -/
theorem get_beta_k_fletcher_reeves_witness :
    get_beta_k (fun p : Vec 2 => p) ![1, 1] ![1, 0] 2 = some 0
    ∧ get_beta_k (fun p : Vec 2 => p) ![1, 1] ![1, 0] 1
        = some (get_norm_of_vector_sq (![1, 1] : Vec 2)
            / get_norm_of_vector_sq (![1, 0] : Vec 2)) :=
  ⟨(get_beta_k_fletcher_reeves (fun p => p) ![1, 1] ![1, 0] 2).1 (by decide),
   (get_beta_k_fletcher_reeves (fun p => p) ![1, 1] ![1, 0] 1).2 (by decide)
     (by simp [get_norm_of_vector_sq, Fin.sum_univ_two])⟩

/-- Claim C10: on restart iterations (iteration number divisible by the
dimension) get_beta_k returns 0 for every gradient oracle, so no derivative
value influences the result and it is defined even where the gradient
vanishes; on every other iteration it divides by the squared gradient norm
at x_previous with no guard, so whenever that norm is zero the unguarded
division by zero is reached and the result is undefined (none). -/
theorem get_beta_k_restart_total_and_unguarded_division {n : ℕ}
    (grad : Vec n → Vec n) (x_current x_previous : Vec n) (k : ℕ) :
    (k % n = 0 → ∀ grad2 : Vec n → Vec n,
        get_beta_k grad2 x_current x_previous k = some 0)
    ∧ (k % n ≠ 0 → get_norm_of_vector_sq (grad x_previous) = 0 →
        get_beta_k grad x_current x_previous k = none) := by
  constructor
  · intro h grad2
    simp only [get_beta_k]
    rw [if_pos h]
  · intro h hp
    simp only [get_beta_k]
    rw [if_neg h, if_pos hp]

/-- Claim C10, witness: the theorem applied in dimension 2: at the restart
iteration 2 the coefficient is 0 even for a nowhere-zero gradient oracle,
and at iteration 1 with the gradient vanishing at x_previous the division
by zero is reached and the result is undefined. -/
theorem get_beta_k_restart_total_and_unguarded_division_witness :
    get_beta_k (fun _ : Vec 2 => ![5, 5]) ![1, 1] ![1, 0] 2 = some 0
    ∧ get_beta_k (fun _ : Vec 2 => ![0, 0]) ![1, 1] ![1, 0] 1 = none :=
  ⟨(get_beta_k_restart_total_and_unguarded_division (fun _ : Vec 2 => ![0, 0])
      ![1, 1] ![1, 0] 2).1 (by decide) (fun _ => ![5, 5]),
   (get_beta_k_restart_total_and_unguarded_division (fun _ : Vec 2 => ![0, 0])
      ![1, 1] ![1, 0] 1).2 (by decide)
     (by simp [get_norm_of_vector_sq, Fin.sum_univ_two])⟩

/-- Helper: Python all over a three-element list of conditions holds exactly
when the three conditions hold. -/
theorem all_props_triple (a b c : Prop) : all_props [a, b, c] ↔ a ∧ b ∧ c := by
  constructor
  · intro h
    exact ⟨h a (by simp), h b (by simp), h c (by simp)⟩
  · rintro ⟨ha, hb, hc⟩ p hp
    simp only [List.mem_cons, List.not_mem_nil, or_false] at hp
    rcases hp with rfl | rfl | rfl
    · exact ha
    · exact hb
    · exact hc

/-- Claim C6: check_all_criteria holds exactly when the objective-decrease
test, the step-size test and the gradient-norm test all hold; consequently a
single failing test makes the combined verdict false. -/
theorem check_all_criteria_iff_all_three {n : ℕ} (f : RVec n → ℝ)
    (grad : RVec n → RVec n) (x_current x_previous : RVec n) (accuracy : ℝ) :
    check_all_criteria f grad x_current x_previous accuracy ↔
      (check_first_stopping_criteria f x_current x_previous accuracy
       ∧ check_second_stopping_criteria x_current x_previous accuracy
       ∧ check_third_stopping_criteria f grad x_current accuracy) := by
  exact all_props_triple _ _ _

/-- Claim C7: for a zero step (x_current equal to x_previous) and positive
accuracy the step-size test holds, its left side being the norm of the zero
vector; and if the gradient at x_current is exactly zero, all three tests
hold, so check_all_criteria holds as well. -/
theorem zero_step_stopping_criteria {n : ℕ} (f : RVec n → ℝ)
    (grad : RVec n → RVec n) (x : RVec n) (accuracy : ℝ) (hacc : 0 < accuracy) :
    check_second_stopping_criteria x x accuracy
    ∧ ((∀ i, grad x i = 0) → check_all_criteria f grad x x accuracy) := by
  have hnorm0 : get_norm_of_vector (fun i => x i - x i) = 0 := by
    simp [get_norm_of_vector]
  have hxnonneg : 0 ≤ get_norm_of_vector x := Real.sqrt_nonneg _
  have hsecond : check_second_stopping_criteria x x accuracy := by
    unfold check_second_stopping_criteria
    rw [hnorm0]
    exact mul_pos (Real.rpow_pos_of_pos hacc _) (by linarith)
  refine ⟨hsecond, fun hgrad => ?_⟩
  have hfirst : check_first_stopping_criteria f x x accuracy := by
    unfold check_first_stopping_criteria
    rw [sub_self]
    have : 0 < 1 + |f x| := by positivity
    exact mul_pos hacc this
  have hthird : check_third_stopping_criteria f grad x accuracy := by
    unfold check_third_stopping_criteria
    have hg : get_norm_of_vector (grad x) = 0 := by
      simp [get_norm_of_vector, hgrad]
    rw [hg]
    have : 0 < 1 + |f x| := by positivity
    exact le_of_lt (mul_pos (Real.rpow_pos_of_pos hacc _) this)
  exact (all_props_triple _ _ _).mpr ⟨hfirst, hsecond, hthird⟩

/-- Claim C7, witness: the theorem applied in dimension 1 to the zero
objective with zero gradient at the origin with accuracy 1. -/
theorem zero_step_stopping_criteria_witness :
    check_second_stopping_criteria (fun _ : Fin 1 => (0 : ℝ)) (fun _ => 0) 1
    ∧ check_all_criteria (fun _ : RVec 1 => (0 : ℝ)) (fun _ _ => 0)
        (fun _ => 0) (fun _ => 0) 1 :=
  ⟨(zero_step_stopping_criteria (fun _ => 0) (fun _ _ => 0) (fun _ => 0) 1
      one_pos).1,
   (zero_step_stopping_criteria (fun _ => 0) (fun _ _ => 0) (fun _ => 0) 1
      one_pos).2 (fun _ => rfl)⟩

/-- Helper: resolving a list of method names succeeds exactly when every name
is a key of the method dictionary. -/
theorem resolve_methods_ok_iff (l : List String) :
    (∃ names, resolve_methods l = Except.ok names) ↔
      ∀ m ∈ l, m ∈ minimization_methods_names := by
  induction l with
  | nil => simp [resolve_methods]
  | cons m ms ih =>
      simp only [resolve_methods, get_minimization_method, List.forall_mem_cons]
      by_cases hm : m ∈ minimization_methods_names
      · rw [if_pos hm]
        cases hr : resolve_methods ms with
        | error e =>
            rw [hr] at ih
            simp at ih
            simp [hm, ih]
        | ok names =>
            rw [hr] at ih
            simp at ih
            simp [hm]
            exact ih
      · rw [if_neg hm]
        simp [hm]

/-- Helper: the alpha-strategy resolution succeeds exactly when the selected
entries form a single known strategy name. -/
theorem get_alpha_ok_iff (aSel : List (String × Bool)) :
    (∃ name, get_alpha_k_calculating_method aSel = Except.ok name) ↔
      (∃ name, (aSel.filter (fun kv => kv.2)).map (fun kv => kv.1) = [name]
        ∧ name ∈ alpha_methods_names) := by
  rcases hsel : (aSel.filter (fun kv => kv.2)).map (fun kv => kv.1) with _ | ⟨a, _ | ⟨b, rest⟩⟩
  · simp [get_alpha_k_calculating_method, hsel]
  · by_cases ha : a ∈ alpha_methods_names
    · simp [get_alpha_k_calculating_method, hsel, ha]
    · simp [get_alpha_k_calculating_method, hsel, ha]
  · simp [get_alpha_k_calculating_method, hsel]

/-- Claim C8: the controller validation succeeds exactly when exactly one
known line-search strategy is selected, at least one minimization method is
selected, and every selected method name is known; so selecting zero or
several strategies, selecting no method, or selecting an unknown name each
raise a configuration error, and a configuration with one known strategy and
known selected methods raises none. -/
theorem controller_run_ok_iff (aSel mSel : List (String × Bool)) :
    (∃ r, controller_run aSel mSel = Except.ok r) ↔
      ((∃ name, (aSel.filter (fun kv => kv.2)).map (fun kv => kv.1) = [name]
          ∧ name ∈ alpha_methods_names)
       ∧ (mSel.filter (fun kv => kv.2)).map (fun kv => kv.1) ≠ []
       ∧ ∀ m ∈ (mSel.filter (fun kv => kv.2)).map (fun kv => kv.1),
           m ∈ minimization_methods_names) := by
  unfold controller_run
  cases halpha : get_alpha_k_calculating_method aSel with
  | error e =>
      have hno : ¬ (∃ name, (aSel.filter (fun kv => kv.2)).map (fun kv => kv.1) = [name]
          ∧ name ∈ alpha_methods_names) := by
        rw [← get_alpha_ok_iff]
        simp [halpha]
      simp [halpha, hno]
  | ok alpha_name =>
      have hyes : ∃ name, (aSel.filter (fun kv => kv.2)).map (fun kv => kv.1) = [name]
          ∧ name ∈ alpha_methods_names := by
        rw [← get_alpha_ok_iff]
        exact ⟨alpha_name, halpha⟩
      simp only [halpha]
      by_cases hempty : ((mSel.filter (fun kv => kv.2)).map (fun kv => kv.1)).length = 0
      · rw [if_pos hempty]
        have hnil : (mSel.filter (fun kv => kv.2)).map (fun kv => kv.1) = [] :=
          List.length_eq_zero.mp hempty
        simp [hnil]
      · rw [if_neg hempty]
        cases hres : resolve_methods ((mSel.filter (fun kv => kv.2)).map (fun kv => kv.1)) with
        | error e =>
            have hnall : ¬ ∀ m ∈ (mSel.filter (fun kv => kv.2)).map (fun kv => kv.1),
                m ∈ minimization_methods_names := by
              rw [← resolve_methods_ok_iff]
              simp [hres]
            constructor
            · rintro ⟨r, hr⟩
              simp at hr
            · rintro ⟨h1, h2, h3⟩
              exact absurd h3 hnall
        | ok ms =>
            have hall : ∀ m ∈ (mSel.filter (fun kv => kv.2)).map (fun kv => kv.1),
                m ∈ minimization_methods_names :=
              (resolve_methods_ok_iff _).mp ⟨ms, hres⟩
            have hne : (mSel.filter (fun kv => kv.2)).map (fun kv => kv.1) ≠ [] := by
              intro h0
              exact hempty (by rw [h0]; rfl)
            constructor
            · intro _
              exact ⟨hyes, hne, hall⟩
            · intro _
              exact ⟨(alpha_name, ms), rfl⟩

/-- Claim C9, counterexample: a two-coordinate starting point together with
an objective over three free symbols is accepted by the constructor, which
returns a normally constructed state instead of raising the configuration
error the claim requires. -/
theorem ABCMinimisationMethod_init_counterexample :
    (∃ st, ABCMinimisationMethod_init ⟨["x_1", "x_2", "x_3"]⟩ [0, 0] [0, 0] (-5) 100
        = Except.ok st)
    ∧ ([0, 0] : List ℚ).length ≠ (["x_1", "x_2", "x_3"] : List String).length :=
  ⟨⟨_, rfl⟩, by decide⟩

/-- Claim C9, amended: the constructor performs no comparison between the
length of x_0 and the number of free symbols of the objective; on every
configuration in which they differ it still succeeds, storing dimension =
len(x_0), and the mismatch surfaces only later, during iteration. -/
theorem ABCMinimisationMethod_init_no_dimension_check (function : SymFunction)
    (x_0 min_point : List ℚ) (accuracy : ℤ) (iteration_threshold : ℕ)
    (_h : x_0.length ≠ function.freeSymbols.length) :
    ∃ st, ABCMinimisationMethod_init function x_0 min_point accuracy iteration_threshold
        = Except.ok st ∧ st.dimension = x_0.length :=
  ⟨_, rfl, rfl⟩

/-- Claim C9, witness: the amended theorem applied at the concrete mismatched
configuration. -/
theorem ABCMinimisationMethod_init_no_dimension_check_witness :
    ([0, 0] : List ℚ).length ≠ (SymFunction.mk ["x_1", "x_2", "x_3"]).freeSymbols.length
    ∧ ∃ st, ABCMinimisationMethod_init ⟨["x_1", "x_2", "x_3"]⟩ [0, 0] [0, 0] (-5) 100
        = Except.ok st ∧ st.dimension = ([0, 0] : List ℚ).length :=
  ⟨by decide, ABCMinimisationMethod_init_no_dimension_check _ _ _ _ _ (by decide)⟩
